import Mathlib

/-!
# Verification of the transcribe-jp segmentation / filtering / realignment core

Shallow embedding of the Python sources under `src/` into Lean 4.

Modelling conventions, used throughout:
* Python `float` time values and ratios are modelled as exact rationals (`ℚ`).
  All comparisons the claims depend on are far from IEEE-754 rounding
  boundaries, and the source performs no float operation whose rounding the
  claims mention.
* Python segment records — the `(start, end, text, words)` 4-tuples and the
  `(start, end, text)` 3-tuples — are modelled uniformly as the `Seg`
  structure; every consumer in the source normalises a 3-tuple to
  `words = []`, which is exactly the `Seg` with empty word list (`end` is a
  Lean keyword, so the field is called `stop`).
* Calls into the external ASR engine (`transcribe_for_realignment`,
  `load_audio_safely`) are modelled by an explicit oracle carried in an
  `Env` value: the oracle maps the audio sample slice that the source
  extracts to the transcription result, `none` modelling a raised exception.
* Python `str` is modelled by Lean `String`; `len` is `String.length`
  (both count Unicode code points).
-/

/-- A word-level timestamp, the Python dict `{word, start, end}`. -/
structure Word where
  word : String
  start : ℚ
  stop : ℚ
deriving DecidableEq, Repr

/-- A segment: the Python `(start, end, text, words)` tuple
(`end` is renamed `stop`; 3-tuples are `words = []`). -/
structure Seg where
  start : ℚ
  stop : ℚ
  text : String
  words : List Word
deriving DecidableEq, Repr

/-- Characters matched by Python's `\s` in the texts this program handles:
ASCII whitespace plus the ideographic space U+3000 (the only other Unicode
whitespace appearing in Japanese subtitles). -/
def isPySpace (c : Char) : Bool :=
  c = ' ' || c = '\t' || c = '\n' || c = '\x0d' || c = '\x0b' || c = '\x0c' || c = '　'

/-- Python `str.strip()` on a character list. -/
def pyStripList (l : List Char) : List Char :=
  ((l.dropWhile isPySpace).reverse.dropWhile isPySpace).reverse

/-- Python `str.strip()`. -/
def pyStrip (s : String) : String :=
  ⟨pyStripList s.data⟩

/-- Python `needle in haystack` (substring containment). -/
def pyIn (needle haystack : String) : Bool :=
  decide (needle.data <:+: haystack.data)

/-- Python `int()` truncation toward zero on a rational. -/
def pyInt (q : ℚ) : ℤ :=
  if 0 ≤ q then ⌊q⌋ else -⌊-q⌋

/-- Length of the Python slice `a[lo:hi]` of a length-`n` array for
`0 ≤ lo`, `0 ≤ hi` (the only case the sources produce). -/
def pySliceLen (n lo hi : ℤ) : ℤ :=
  max 0 (min hi n - min lo n)

/-!
## `difflib.SequenceMatcher` (CPython, `isjunk=None`, `autojunk=False`)

`calculate_text_similarity` (src/shared/text_utils.py:9) delegates to
`difflib.SequenceMatcher(None, clean1, clean2, autojunk=False).ratio()`.
The matcher is embedded below.

`runlen a b alo blo i j` is the value the `j2len` dynamic program of
`find_longest_match` associates to position `j` while scanning row `i`:
the length of the common diagonal run ending at `(i, j)`, restricted to
indices `≥ alo` / `≥ blo` (entries below the window are never entered into
`j2len`, so a run restarts there).
-/

def runlen (a b : List Char) (alo blo : Nat) : Nat → Nat → Nat
  | 0, j =>
    if alo = 0 ∧ blo ≤ j ∧ 0 < a.length ∧ j < b.length ∧ a.get? 0 = b.get? j then 1 else 0
  | i + 1, 0 =>
    if alo ≤ i + 1 ∧ blo = 0 ∧ i + 1 < a.length ∧ 0 < b.length ∧
        a.get? (i + 1) = b.get? 0 then 1 else 0
  | i + 1, j + 1 =>
    if alo ≤ i + 1 ∧ blo ≤ j + 1 ∧ i + 1 < a.length ∧ j + 1 < b.length ∧
        a.get? (i + 1) = b.get? (j + 1) then
      runlen a b alo blo i j + 1
    else 0

/-- The `(i, j)` positions `find_longest_match` scans, in scan order:
rows `i ∈ [alo, ahi)` ascending, and within a row the positions
`j ∈ [blo, bhi)` with `b[j] = a[i]` ascending (Python iterates `b2j[a[i]]`
ascending, `continue`s below `blo` and `break`s at `bhi`). -/
def lmPairs (a b : List Char) (alo ahi blo bhi : Nat) : List (Nat × Nat) :=
  (List.range' alo (ahi - alo)).flatMap (fun i =>
    ((List.range' blo (bhi - blo)).filter (fun j => b.get? j = a.get? i)).map (fun j => (i, j)))

/-- One update of the running best block `(besti, bestj, bestsize)`:
Python updates only on a strictly larger `k`, so the earliest achiever of
the final maximum is kept. -/
def lmStep (a b : List Char) (alo blo : Nat) (best : Nat × Nat × Nat) (p : Nat × Nat) :
    Nat × Nat × Nat :=
  let k := runlen a b alo blo p.1 p.2
  if best.2.2 < k then (p.1 + 1 - k, p.2 + 1 - k, k) else best

/-- The dynamic-programming phase of `find_longest_match`. -/
def lmBest (a b : List Char) (alo ahi blo bhi : Nat) : Nat × Nat × Nat :=
  (lmPairs a b alo ahi blo bhi).foldl (lmStep a b alo blo) (alo, blo, 0)

/-- The first `while` of `find_longest_match`: extend the block left over
equal (non-junk; the junk set is empty here) characters. -/
def extendLeft (a b : List Char) (alo blo : Nat) :
    Nat → Nat → Nat → Nat × Nat × Nat
  | besti, bestj, bestsize =>
    if h : alo < besti ∧ blo < bestj ∧ (a.get? (besti - 1)).isSome ∧
        a.get? (besti - 1) = b.get? (bestj - 1) then
      extendLeft a b alo blo (besti - 1) (bestj - 1) (bestsize + 1)
    else (besti, bestj, bestsize)
termination_by besti _ _ => besti
decreasing_by
  exact Nat.sub_lt (Nat.lt_of_le_of_lt (Nat.zero_le _) h.1) Nat.one_pos

/-- The second `while` of `find_longest_match`: extend the block right over
equal characters.  (The junk-extension loops that follow in CPython are
no-ops because the junk set is empty with `isjunk=None`.) -/
def extendRight (a b : List Char) (ahi bhi besti bestj : Nat) : Nat → Nat
  | bestsize =>
    if h : besti + bestsize < ahi ∧ bestj + bestsize < bhi ∧
        (a.get? (besti + bestsize)).isSome ∧
        a.get? (besti + bestsize) = b.get? (bestj + bestsize) then
      extendRight a b ahi bhi besti bestj (bestsize + 1)
    else bestsize
termination_by bestsize => ahi - (besti + bestsize)
decreasing_by
  have h1 : besti + bestsize < besti + (bestsize + 1) := by omega
  exact Nat.sub_lt_sub_left h.1 h1

/-- `SequenceMatcher.find_longest_match` over `a[alo:ahi]` / `b[blo:bhi]`. -/
def findLongestMatch (a b : List Char) (alo ahi blo bhi : Nat) : Nat × Nat × Nat :=
  let d := lmBest a b alo ahi blo bhi
  let l := extendLeft a b alo blo d.1 d.2.1 d.2.2
  (l.1, l.2.1, extendRight a b ahi bhi l.1 l.2.1 l.2.2)

/-- Total size of the matching blocks of `get_matching_blocks`, computed by
the same recursive splitting around the longest match.  The recursion is
fuelled; `(ahi - alo) + (bhi - blo)` strictly decreases at each split, so
the initial fuel `a.length + b.length` in `matchTotal` is always enough. -/
def matchTotalF (a b : List Char) : Nat → Nat → Nat → Nat → Nat → Nat
  | 0, _, _, _, _ => 0
  | fuel + 1, alo, ahi, blo, bhi =>
    let lm := findLongestMatch a b alo ahi blo bhi
    if lm.2.2 = 0 then 0
    else
      matchTotalF a b fuel alo lm.1 blo lm.2.1 + lm.2.2 +
        matchTotalF a b fuel (lm.1 + lm.2.2) ahi (lm.2.1 + lm.2.2) bhi

/-- `matches = sum(triple[-1] for triple in get_matching_blocks())`. -/
def matchTotal (a b : List Char) : Nat :=
  matchTotalF a b (a.length + b.length) 0 a.length 0 b.length

/-- `SequenceMatcher.ratio()`: `2.0 * matches / (len(a) + len(b))`, and
`1.0` when both inputs are empty (`_calculate_ratio`). -/
def ratioVal (a b : List Char) : ℚ :=
  if a.length + b.length = 0 then 1
  else (2 * matchTotal a b : ℕ) / ((a.length + b.length : ℕ) : ℚ)

/-- The character class removed by `re.sub(r'[、。！？\s]', '', text)` in
`calculate_text_similarity`. -/
def isSimPunct (c : Char) : Bool :=
  c = '、' || c = '。' || c = '！' || c = '？' || isPySpace c

/-- The cleaned character sequence `re.sub(r'[、。！？\s]', '', text)`. -/
def simClean (s : List Char) : List Char :=
  s.filter (fun c => ¬ isSimPunct c)

/-- `calculate_text_similarity` (src/shared/text_utils.py:9-42). -/
def calculate_text_similarity (text1 text2 : String) : ℚ :=
  let clean1 := simClean text1.data
  let clean2 := simClean text2.data
  if clean1 = [] ∨ clean2 = [] then 0
  else ratioVal clean1 clean2

/-!
## Configuration and external-collaborator environment
-/

/-- The configuration keys the embedded functions read, with the defaults the
source supplies at each `get` site.  `phrases` models the legacy
`phrase_filter.phrases` list (the configurations used by the theorems);
general `regex_patterns` / `patterns` regexes are not modelled. -/
structure Config where
  -- segment_merging (src/modules/stage3_segment_merging/processor.py:46-50,78)
  incomplete_markers : List String := ["て", "で", "と", "が", "けど", "ども", "たり"]
  max_merge_gap : ℚ := 1/2
  -- segment_splitting (src/modules/stage4_segment_splitting)
  max_line_length : Nat := 30
  primary_breaks : List String := ["。", "？", "！", "?", "!"]
  secondary_breaks : List String := ["、", "わ", "ね", "よ"]
  enable_llm : Bool := false
  enable_revalidate_split : Bool := false
  -- hallucination_filter.phrase_filter
  phrase_enable : Bool := false
  phrases : List String := []
  phrase_enable_revalidate : Bool := false
  -- hallucination_filter.consecutive_duplicates
  dup_enable : Bool := false
  min_occurrences : Nat := 4
  -- hallucination_filter.timing_validation
  timing_enable : Bool := false
  max_chars_per_second : ℚ := 20
  timing_enable_revalidate : Bool := false
  -- timing_realignment
  min_gap : ℚ := 1/10
  tb_similarity : ℚ := 3/5
  ts_similarity : ℚ := 17/20
  adjustment_threshold : ℚ := 3/10

/-- One segment of an ASR transcription result. -/
structure TransSeg where
  text : String
  start : ℚ
  stop : ℚ
  words : List Word
deriving DecidableEq, Repr

/-- An ASR transcription result (`{text, segments}`). -/
structure TransResult where
  text : String
  segments : List TransSeg
deriving DecidableEq, Repr

/-- The external collaborators: the loaded Whisper model / media path
(`None`-ness only), the loaded audio array (its sample length), the ASR
oracle (`transcribe_for_realignment` applied to the audio slice
`audio[lo:hi]`; `none` models a raised exception), and the LLM provider
(`create_llm_provider` result; `some generate` maps a prompt to the
response text). -/
structure Env where
  modelPresent : Bool
  mediaPresent : Bool
  audioOk : Bool
  audioLen : ℤ
  transcribe : ℤ → ℤ → Option TransResult
  provider : Option (String → String)

/-- Python `str.endswith`. -/
def pyEndsWith (s suffix : String) : Bool :=
  decide (suffix.data <:+ s.data)

/-!
## Stage 3: `merge_incomplete_segments` (src/modules/stage3_segment_merging/processor.py:40-167)
-/

/-- The three-way merge condition computed for each adjacent pair
(processor.py:74-99).  `prev` is the raw previous input segment
(`segments[i - 1]`), not the accumulated group. -/
def shouldMergeSeg (cfg : Config) (prev curr : Seg) : Bool :=
  let prev_text := pyStrip prev.text
  let curr_text := pyStrip curr.text
  let is_incomplete := cfg.incomplete_markers.any (fun m => pyEndsWith prev_text m)
  let time_gap := curr.start - prev.stop
  let combined_length := prev_text.length + curr_text.length
  is_incomplete && decide (time_gap < cfg.max_merge_gap) &&
    decide (combined_length ≤ cfg.max_line_length)

/-- Finalising a group (processor.py:104-132 and the duplicated tail
137-165): a single segment passes through unchanged; several are merged —
stripped texts concatenated, time span `[first.start, last.end]`, word
lists concatenated only when every member has a non-empty word list. -/
def finalizeGroup (s : Seg) (rest : List Seg) : Seg :=
  match rest with
  | [] => s
  | _ :: _ =>
    let group := s :: rest
    let combined_text := String.join (group.map (fun g => pyStrip g.text))
    let all_have_words := group.all (fun g => ¬ g.words.isEmpty)
    { start := s.start
      stop := (group.getLast (by simp)).stop
      text := combined_text
      words := if all_have_words then (group.map (·.words)).flatten else [] }

/-- The grouping loop of `merge_incomplete_segments`: `prev` is the raw
previous input segment, `gh :: gt` the current group. -/
def mergeGroupsLoop (cfg : Config) : Seg → Seg → List Seg → List Seg → List Seg
  | _, gh, gt, [] => [finalizeGroup gh gt]
  | prev, gh, gt, curr :: rest =>
    if shouldMergeSeg cfg prev curr then
      mergeGroupsLoop cfg curr gh (gt ++ [curr]) rest
    else
      finalizeGroup gh gt :: mergeGroupsLoop cfg curr curr [] rest

/-- `merge_incomplete_segments(segments, config)`. -/
def merge_incomplete_segments (segments : List Seg) (cfg : Config) : List Seg :=
  match segments with
  | [] => []
  | s :: rest => mergeGroupsLoop cfg s s [] rest

/-!
## Stage 4, rule-based splitter (src/modules/stage4_segment_splitting/basic_splitter.py)
-/

/-- `any(break_char in word for break_char in breaks)`. -/
def hasBreakIn (breaks : List String) (w : String) : Bool :=
  breaks.any (fun b => pyIn b w)

/-- The word-walking loop of `split_segment_with_timing`
(basic_splitter.py:41-92), returning the chunks as word lists.
`cur`/`txt` are `current_chunk_words` / `current_chunk_text`. -/
def splitWalk (primary secondary : List String) (maxLen : Nat) :
    List Word → List Word → String → List (List Word)
  | [], cur, _ => if cur.isEmpty then [] else [cur]
  | w :: rest, cur, txt =>
    let cur' := cur ++ [w]
    let txt' := txt ++ w.word
    if hasBreakIn primary w.word then
      cur' :: splitWalk primary secondary maxLen rest [] ""
    else if maxLen ≤ txt'.length then
      if (rest.take 10).any (fun nw => hasBreakIn primary nw.word) then
        splitWalk primary secondary maxLen rest cur' txt'
      else if hasBreakIn secondary w.word then
        cur' :: splitWalk primary secondary maxLen rest [] ""
      else
        splitWalk primary secondary maxLen rest cur' txt'
    else
      splitWalk primary secondary maxLen rest cur' txt'

/-- The hard-coded break lists of `split_by_character_proportion`
(basic_splitter.py:113-114) — the fallback does not read the config. -/
def cpPrimaryBreaks : List String := ["。", "？", "！"]

def cpSecondaryBreaks : List String :=
  ["、", "が", "を", "に", "で", "と", "の", "は", "も", "て", "た", "ね", "よ", "わ",
   "ば", "けど", "から", "し"]

/-- `text[i + j] in breaks`: the 1-character string at `i + j` is compared
against the break strings (multi-character entries such as `けど` can never
equal a 1-character string). -/
def chInBreaks (c : Char) (breaks : List String) : Bool :=
  breaks.any (fun b => b == String.mk [c])

/-- The character-walking loop of `split_by_character_proportion`
(basic_splitter.py:120-155).  At each position, `rem` is `text[i:]` and
`chunk` is `current_chunk` without the current character. -/
def charPropWalk (maxLen : Nat) : List Char → List Char → List (List Char)
  | [], chunk => if chunk.isEmpty then [] else [chunk]
  | c :: rest, chunk =>
    let chunk' := chunk ++ [c]
    if maxLen ≤ chunk'.length then
      match ((c :: rest).take 5).findIdx? (fun ch => chInBreaks ch cpPrimaryBreaks) with
      | some j =>
        (chunk' ++ rest.take j) :: charPropWalk maxLen (rest.drop j) []
      | none =>
        match ((c :: rest).take 10).findIdx? (fun ch => chInBreaks ch cpSecondaryBreaks) with
        | some j =>
          (chunk' ++ rest.take j) :: charPropWalk maxLen (rest.drop j) []
        | none =>
          if maxLen + 5 ≤ chunk'.length then
            chunk' :: charPropWalk maxLen rest []
          else
            charPropWalk maxLen rest chunk'
    else
      charPropWalk maxLen rest chunk'
termination_by rem _ => rem.length
decreasing_by
  all_goals simp only [List.length_cons, List.length_drop]
  all_goals omega

/-- The proportional-timing assembly of `split_by_character_proportion`
(basic_splitter.py:157-169). -/
def proportionTiming (stop duration : ℚ) (total : Nat) :
    List (List Char) → ℚ → List Seg
  | [], _ => []
  | ch :: rest, current =>
    let chunk_duration := duration * ((ch.length : ℚ) / (total : ℚ))
    let chunk_end := min (current + chunk_duration) stop
    ⟨current, chunk_end, String.mk ch, []⟩ :: proportionTiming stop duration total rest chunk_end

/-- `split_by_character_proportion(text, start_time, end_time, max_length)`. -/
def split_by_character_proportion (text : String) (start_time end_time : ℚ)
    (maxLen : Nat) : List Seg :=
  let duration := end_time - start_time
  let chunks := charPropWalk maxLen text.data []
  proportionTiming end_time duration text.length chunks start_time

/-- `split_segment_with_timing(segment, config)` (basic_splitter.py:6-107).
`simplify_repetitions` is `text.strip()` (src/shared/text_utils.py:70-75). -/
def split_segment_with_timing (segment : Seg) (cfg : Config) : List Seg :=
  let text := pyStrip (pyStrip segment.text)
  let start_time := segment.start
  let end_time := segment.stop
  let words := segment.words
  if text.length ≤ cfg.max_line_length then
    [⟨start_time, end_time, text, words⟩]
  else if words.isEmpty then
    split_by_character_proportion text start_time end_time cfg.max_line_length
  else
    let chunks := splitWalk cfg.primary_breaks cfg.secondary_breaks cfg.max_line_length words [] ""
    let result := chunks.filterMap (fun cw =>
      match cw with
      | [] => none
      | c0 :: cs =>
        some ⟨c0.start, ((c0 :: cs).getLast (by simp)).stop,
          String.join ((c0 :: cs).map (·.word)), c0 :: cs⟩)
    if result.isEmpty then [⟨start_time, end_time, text, []⟩] else result

/-!
## Stage 4, LLM splitter (src/modules/stage4_segment_splitting/llm_splitter.py)
-/

/-- The character class removed by `clean_for_matching`
(llm_splitter.py:9-11): `[、。？！\s…「」『』【】（）()[\]]`. -/
def isCfmPunct (c : Char) : Bool :=
  c = '、' || c = '。' || c = '？' || c = '！' || isPySpace c || c = '…' ||
  c = '「' || c = '」' || c = '『' || c = '』' || c = '【' || c = '】' ||
  c = '（' || c = '）' || c = '(' || c = ')' || c = '[' || c = ']'

/-- `clean_for_matching(text)`. -/
def clean_for_matching (text : String) : String :=
  ⟨text.data.filter (fun c => ¬ isCfmPunct c)⟩

/-- `validate_llm_segments(original_text, llm_segments)`
(llm_splitter.py:14-42).  The source returns `(bool, message)`; the
diagnostic message (which interpolates formatted floats) is dropped and
only the decision is modelled. -/
def validate_llm_segments (original_text : String) (llm_segments : List String) : Bool :=
  if llm_segments.isEmpty then false
  else
    let joined_text := String.join llm_segments
    let similarity := calculate_text_similarity original_text joined_text
    let original_clean := clean_for_matching original_text
    let joined_clean := clean_for_matching joined_text
    if (pyStrip joined_text).isEmpty then false
    else if (joined_clean.length : ℚ) < (original_clean.length : ℚ) * (8/10) then false
    else if (original_clean.length : ℚ) * (13/10) < (joined_clean.length : ℚ) then false
    else if similarity < 17/20 then false
    else true

/-- The prompt f-string of `split_long_segment_with_llm`
(llm_splitter.py:74-89); `{{`/`}}` render as literal braces. -/
def splitPrompt (text : String) (text_length max_line_length : Nat) : String :=
  "日本語の字幕テキストを自然な区切りで分割してください。\n\nテキスト: " ++ text ++
  "\n文字数: " ++ toString text_length ++ "文字\n推奨長さ: " ++
  toString max_line_length ++ "文字\n\n以下のルールに従って分割してください:\n1. 各セグメントを" ++
  toString max_line_length ++
  "文字に近い長さにする（できるだけ均等に分割）\n2. 意味のまとまりごとに分割する\n3. 句読点や助詞の位置を考慮する\n4. 会話の流れを壊さない\n\nJSON形式で、分割後のテキストを配列で返してください。\n例: \x7b\"segments\": [\"最初の部分\", \"次の部分\", \"最後の部分\"]\x7d\n\n必ずJSONのみを返してください。説明文は不要です。"

/-- The parameter list of `parse_json_response` (src/shared/llm_utils.py:412):
a single positional parameter. -/
def parse_json_response_params : List String := ["response_text"]

/-- Python call binding for keyword arguments: a keyword argument that is
not among the callee's parameters raises `TypeError`. -/
def kwargsBindOk (params : List String) (kwargs : List String) : Bool :=
  kwargs.all (fun k => params.contains k)

/-- Result of `split_long_segment_with_llm` together with whether the
provider's `generate` was invoked during the call. -/
structure SplitOutcome where
  segments : List Seg
  generateCalled : Bool
deriving DecidableEq, Repr

/-- `split_long_segment_with_llm(text, start_time, end_time, word_timestamps,
config)` (llm_splitter.py:45-502).

The call `parse_json_response(response_text, prompt=prompt, context=context)`
at line 114 passes keyword arguments `prompt` and `context` that the
one-parameter definition of `parse_json_response`
(src/shared/llm_utils.py:412) cannot bind, so it raises `TypeError` on
every input that reaches it.  `TypeError` is not `json.JSONDecodeError`, so
the inner handler (line 116) does not match and the outer
`except Exception` (line 500) returns the original segment.  Lines
115–499 (segment validation, the timing-feasibility checks, and the
word-timestamp mapping) are therefore unreachable; the embedding keeps the
reachable control flow exactly and collapses the unreachable remainder
into the branch guarded by `kwargsBindOk` (which evaluates to `false`). -/
def split_long_segment_with_llm (text : String) (start_time end_time : ℚ)
    (word_timestamps : List Word) (cfg : Config) (env : Env) : SplitOutcome :=
  -- `word_timestamps if word_timestamps else []` is the identity on lists
  let unsplit : List Seg := [⟨start_time, end_time, text, word_timestamps⟩]
  if ¬ cfg.enable_llm then ⟨unsplit, false⟩
  else
    let text_length := (pyStrip text).length
    if text_length ≤ cfg.max_line_length then ⟨unsplit, false⟩
    else
      match env.provider with
      | none => ⟨unsplit, false⟩
      | some generate =>
        let prompt := splitPrompt text text_length cfg.max_line_length
        let response_text := generate prompt
        if response_text = "" then
          -- line 102 returns a 3-tuple: the word list is dropped
          ⟨[⟨start_time, end_time, text, []⟩], true⟩
        else
          if kwargsBindOk parse_json_response_params ["prompt", "context"] then
            -- unreachable (see the doc comment); value irrelevant
            ⟨unsplit, true⟩
          else
            -- TypeError propagates to the catch-all at line 500
            ⟨unsplit, true⟩

/-!
## Stage 5: hallucination filtering (src/modules/stage5_hallucination_filtering)
-/

/-- The character class removed by `normalize_text`
(phrase_filter.py:12-24): `[\s、。！？…\.,!?]+`. -/
def isNormPunct (c : Char) : Bool :=
  isPySpace c || c = '、' || c = '。' || c = '！' || c = '？' || c = '…' ||
  c = '.' || c = ',' || c = '!' || c = '?'

/-- `normalize_text(text)` (phrase_filter.py:12-24). -/
def normalize_text (text : String) : String :=
  pyStrip ⟨text.data.filter (fun c => ¬ isNormPunct c)⟩

/-- The compiled pattern list of `remove_hallucination_phrases`
(phrase_filter.py:69-97) for a configuration using the legacy `phrases`
key, the shape all theorems below use: each phrase with a non-empty
normalisation becomes the anchored literal pattern
`^re.escape(normalize_text(phrase))$`, and `re.search` of that pattern
against a normalised text succeeds exactly when the text equals the
normalised phrase.  (Free-form `regex_patterns` / `patterns` are not
modelled; no theorem uses them.) -/
def phrasePatterns (cfg : Config) : List String :=
  (cfg.phrases.map normalize_text).filter (fun p => ¬ p.isEmpty)

/-- `any(pattern.search(normalized_text) for pattern in compiled_patterns)`
for the anchored literal patterns above. -/
def matchesAnyPattern (cfg : Config) (normalized_text : String) : Bool :=
  (phrasePatterns cfg).any (fun p => normalized_text == p)

/-- `revalidate_segment_with_whisper(media_path, start_time, end_time,
original_text, model, config)` (timing_validator.py:92-140).
`some (t, w)` is the `(new_text, new_words)` return (which is
`(original_text, [])` on audio-load failure, a too-short clip or an
exception), `none` is the `(None, [])` "no speech" return. -/
def revalidate_segment_with_whisper (env : Env) (start_time end_time : ℚ)
    (original_text : String) : Option (String × List Word) :=
  if ¬ env.audioOk then some (original_text, [])
  else
    let lo := pyInt (start_time * 16000)
    let hi := pyInt (end_time * 16000)
    if pySliceLen env.audioLen lo hi < 1600 then some (original_text, [])
    else
      match env.transcribe lo hi with
      | none => some (original_text, [])
      | some result =>
        if ¬ result.segments.isEmpty then
          let new_text := pyStrip (String.join (result.segments.map (fun s => pyStrip s.text)))
          let new_words := (result.segments.map (·.words)).flatten
          if ¬ new_text.isEmpty then some (new_text, new_words) else none
        else none

/-- The per-segment loop of `remove_hallucination_phrases`
(phrase_filter.py:104-157).  In the false-positive branch (similarity
`< 0.75`) the source appends the re-transcribed segment at line 150 and —
with no `continue` — falls through to the unconditional append of the
original at line 157: both appear in the output. -/
def phraseFilterLoop (cfg : Config) (env : Env) : List Seg → List Seg
  | [] => []
  | s :: rest =>
    let normalized_text := normalize_text s.text
    if matchesAnyPattern cfg normalized_text then
      if cfg.phrase_enable_revalidate && env.modelPresent && env.mediaPresent then
        match revalidate_segment_with_whisper env s.start s.stop s.text with
        | none => phraseFilterLoop cfg env rest
        | some (new_text, new_words) =>
          let similarity :=
            calculate_text_similarity (normalize_text s.text) (normalize_text new_text)
          if (3 : ℚ)/4 ≤ similarity then phraseFilterLoop cfg env rest
          else
            ⟨s.start, s.stop, new_text, new_words⟩ ::
              ⟨s.start, s.stop, s.text, s.words⟩ :: phraseFilterLoop cfg env rest
      else phraseFilterLoop cfg env rest
    else
      ⟨s.start, s.stop, s.text, s.words⟩ :: phraseFilterLoop cfg env rest

/-- `remove_hallucination_phrases(segments, config, model, media_path)`
(phrase_filter.py:27-164). -/
def remove_hallucination_phrases (cfg : Config) (env : Env) (segments : List Seg) :
    List Seg :=
  if ¬ cfg.phrase_enable then segments
  else if (phrasePatterns cfg).isEmpty then segments
  else phraseFilterLoop cfg env segments

/-- `remove_consecutive_duplicates(sub_segments, config)`
(duplicate_filter.py:63-120).  All three repeat-count branches append the
same `(start, extended_end, stripped_text, first_words)` tuple —
`min_occurrences` only selects the log message — so the embedding merges
them. -/
def remove_consecutive_duplicates (cfg : Config) : List Seg → List Seg
  | [] => []
  | s :: rest =>
    let text_clean := pyStrip s.text
    let dups := rest.takeWhile (fun n => pyStrip n.text == text_clean)
    let end_time := ((dups.getLast?).map (·.stop)).getD s.stop
    ⟨s.start, end_time, text_clean, s.words⟩ ::
      remove_consecutive_duplicates cfg (rest.drop dups.length)
termination_by l => l.length
decreasing_by
  simp only [List.length_cons, List.length_drop]
  omega

/-- `merge_single_char_segments(sub_segments)` (duplicate_filter.py:6-60).
Note the inner scan extends `merged_words` with the words of every
segment it examines — including the first non-matching segment that ends
the run — before deciding to break; the embedding reproduces this. -/
def merge_single_char_segments : List Seg → List Seg
  | [] => []
  | s :: rest =>
    let text := pyStrip s.text
    if text.length = 1 then
      let sames := rest.takeWhile (fun n => pyStrip n.text == text)
      let rest' := rest.drop sames.length
      if ¬ sames.isEmpty then
        let breakerWords := match rest' with
          | [] => []
          | b :: _ => b.words
        let merged_words := s.words ++ (sames.map (·.words)).flatten ++ breakerWords
        let combined_text :=
          String.intercalate "、" (text :: sames.map (fun n => pyStrip n.text))
        let end_time := ((sames.getLast?).map (·.stop)).getD s.stop
        ⟨s.start, end_time, combined_text, merged_words⟩ ::
          merge_single_char_segments rest'
      else
        ⟨s.start, s.stop, text, s.words⟩ :: merge_single_char_segments rest
    else
      ⟨s.start, s.stop, text, s.words⟩ :: merge_single_char_segments rest
termination_by l => l.length
decreasing_by
  all_goals simp only [List.length_cons, List.length_drop]
  all_goals omega

/-- Output of `validate_segment_timing`: the filtered list plus the
`suspicious_count` / `revalidated_count` tallies and the list of
re-transcription invocations made (in order). -/
structure ValidateOut where
  validated : List Seg
  suspicious : Nat
  revalidated : Nat
  calls : List (ℚ × ℚ × String)
deriving DecidableEq, Repr

/-- `validate_segment_timing(segments, config, model, media_path)`
(timing_validator.py:9-89). -/
def validate_segment_timing (cfg : Config) (env : Env) : List Seg → ValidateOut
  | [] => ⟨[], 0, 0, []⟩
  | s :: rest =>
    let duration := s.stop - s.start
    if duration ≤ 0 then validate_segment_timing cfg env rest
    else
      let chars_per_second := (s.text.length : ℚ) / duration
      let is_too_fast := decide (cfg.max_chars_per_second < chars_per_second)
      let is_too_slow := decide (chars_per_second < 1 ∧ 5 < s.text.length)
      if is_too_fast || is_too_slow then
        if cfg.timing_enable_revalidate && env.modelPresent && env.mediaPresent then
          match revalidate_segment_with_whisper env s.start s.stop s.text with
          | none =>
            let r := validate_segment_timing cfg env rest
            ⟨r.validated, r.suspicious + 1, r.revalidated, (s.start, s.stop, s.text) :: r.calls⟩
          | some (t, w) =>
            let r := validate_segment_timing cfg env rest
            ⟨⟨s.start, s.stop, t, w⟩ :: r.validated, r.suspicious + 1, r.revalidated + 1,
              (s.start, s.stop, s.text) :: r.calls⟩
        else
          let r := validate_segment_timing cfg env rest
          ⟨r.validated, r.suspicious + 1, r.revalidated, r.calls⟩
      else
        let r := validate_segment_timing cfg env rest
        ⟨⟨s.start, s.stop, s.text, s.words⟩ :: r.validated, r.suspicious, r.revalidated, r.calls⟩

/-- `revalidate_segments_with_whisper(segments, model, media_path, config)`
(timing_validator.py:143-217). -/
def revalidate_segments_with_whisper (cfg : Config) (env : Env) : List Seg → List Seg
  | [] => []
  | s :: rest =>
    let duration := s.stop - s.start
    let text_length := (pyStrip s.text).length
    let needs_revalidation :=
      (decide (0 < duration) && decide (cfg.max_chars_per_second < (text_length : ℚ) / duration)) ||
      (decide (duration < 3/10) && decide (5 < text_length)) ||
      (s.words.isEmpty && decide (10 < text_length))
    if needs_revalidation then
      match revalidate_segment_with_whisper env s.start s.stop s.text with
      | none => revalidate_segments_with_whisper cfg env rest
      | some (t, w) => ⟨s.start, s.stop, t, w⟩ :: revalidate_segments_with_whisper cfg env rest
    else
      s :: revalidate_segments_with_whisper cfg env rest

/-- The per-segment loop of `_apply_llm_splitting`
(src/modules/stage5_hallucination_filtering/processor.py:98-133).
`lastStop` is `llm_split_segments[-1][1]` when the accumulated output is
non-empty and the loop index is positive (equivalent, since every
`split_long_segment_with_llm` call contributes at least one segment). -/
def applyLLMLoop (cfg : Config) (env : Env) : Option ℚ → List Seg → List Seg
  | _, [] => []
  | lastStop, s :: rest =>
    let se : ℚ × ℚ :=
      if s.words.isEmpty then
        let st := match lastStop with
          | some prev_end => if |prev_end - s.start| < 1/2 then prev_end else s.start
          | none => s.start
        let en := match rest with
          | next :: _ => if |next.start - s.stop| < 1/2 then next.start else s.stop
          | [] => s.stop
        (st, en)
      else (s.start, s.stop)
    let pieces := (split_long_segment_with_llm s.text se.1 se.2 s.words cfg env).segments
    let newLast := match pieces.getLast? with
      | some l => some l.stop
      | none => lastStop
    pieces ++ applyLLMLoop cfg env newLast rest

/-- `_apply_llm_splitting(segments, config, model, media_path)`
(processor.py:67-148). -/
def apply_llm_splitting (cfg : Config) (env : Env) (segments : List Seg) : List Seg :=
  let llm_split_segments := applyLLMLoop cfg env none segments
  if cfg.enable_revalidate_split && env.modelPresent && env.mediaPresent then
    revalidate_segments_with_whisper cfg env llm_split_segments
  else llm_split_segments

/-- `filter_hallucinations(segments, config, model, media_path)`
(processor.py:17-64).  Steps 1–4 run once each, in order; there is no
re-run of steps 1–2 after step 4.  The processor calls
`remove_hallucination_phrases(segments, config)` *without* model and
media path (line 38), so phrase re-validation is disabled inside this
stage regardless of the config. -/
def filter_hallucinations (cfg : Config) (env : Env) (segments : List Seg) : List Seg :=
  let envNoModel : Env := { env with modelPresent := false, mediaPresent := false }
  let s1 := if cfg.phrase_enable then remove_hallucination_phrases cfg envNoModel segments
            else segments
  let s2 := if cfg.dup_enable then remove_consecutive_duplicates cfg s1 else s1
  let s3 := merge_single_char_segments s2
  let s4 := if cfg.timing_enable then (validate_segment_timing cfg env s3).validated else s3
  if cfg.enable_llm then apply_llm_splitting cfg env s4 else s4

/-!
## Stage 6: timing realignment (src/modules/stage6_timing_realignment)

The exponential expansion schedules (time_based_realignment.py:184-199,
text_search_realignment.py:131-144) are computed with IEEE-754 `**` and
`math.ceil`; their concrete values are irrational powers that have no
exact rational representation, and no claim depends on them, so both
realigners take the already-computed schedule as the explicit parameter
`expansionValues`.  Everything else is embedded directly.
-/

/-- The split-point scoring loop of `find_boundary_between_segments`
(time_based_realignment.py:68-93): for each index `i` into `all_words`,
score the split `(words before i, words from i)` against the two segment
texts and keep the strictly best, recording the boundary time. -/
def boundaryFold (prev_text curr_text : String) (all_words : List Word)
    (search_start : ℚ) : ℚ × Option ℚ :=
  (List.range all_words.length).foldl
    (fun best i =>
      let before_text := String.join (((all_words.take i).map (·.word)))
      let after_text := String.join (((all_words.drop i).map (·.word)))
      let prev_similarity := calculate_text_similarity prev_text before_text
      let curr_similarity := calculate_text_similarity curr_text after_text
      let score := (prev_similarity + curr_similarity) / 2
      if best.1 < score then
        let boundary_time :=
          if 0 < i then ((all_words.get? (i - 1)).map (·.stop)).getD 0
          else ((all_words.get? 0).map (·.start)).getD 0
        (score, some (search_start + boundary_time))
      else best)
    (0, none)

/-- `find_boundary_between_segments(prev_seg, curr_seg, audio, model, config)`
(time_based_realignment.py:12-102). -/
def find_boundary_between_segments (env : Env) (prev_seg curr_seg : Seg) : Option ℚ :=
  let search_start := prev_seg.start
  let search_end := curr_seg.stop
  let lo := pyInt (search_start * 16000)
  let hi := pyInt (search_end * 16000)
  if pySliceLen env.audioLen lo hi < 1600 then none
  else
    match env.transcribe lo hi with
    | none => none
    | some result =>
      if result.segments.isEmpty then none
      else
        let all_words := (result.segments.map (·.words)).flatten
        if all_words.isEmpty then none
        else
          let best := boundaryFold prev_seg.text curr_seg.text all_words search_start
          match best.2 with
          | some b => if (1 : ℚ)/2 ≤ best.1 then some b else none
          | none => none

/-- One sliding-window trial of `verify_segment_timing_time_based`
(time_based_realignment.py:219-234 / 241-257): transcribe the shifted
fixed-duration window and keep it when the similarity strictly improves.
The state is `(best_similarity, best_result, best_start, best_end)`. -/
def tbTrial (env : Env) (text : String) (shifted_start segment_duration : ℚ)
    (st : ℚ × Option TransResult × ℚ × ℚ) : ℚ × Option TransResult × ℚ × ℚ :=
  let shifted_end := shifted_start + segment_duration
  let lo := pyInt (shifted_start * 16000)
  let hi := pyInt (shifted_end * 16000)
  if pySliceLen env.audioLen lo hi < 1600 then st
  else
    match env.transcribe lo hi with
    | none => st
    | some result =>
      let similarity := calculate_text_similarity text (pyStrip result.text)
      if st.1 < similarity then (similarity, some result, shifted_start, shifted_end) else st

/-- The sliding-window search loop (time_based_realignment.py:212-261):
for each expansion value, try the backward then the forward shift, with
the early-stop threshold checks before the loop body and between the two
trials. -/
def tbSearch (cfg : Config) (env : Env) (text : String) (start_time segment_duration : ℚ) :
    List ℚ → (ℚ × Option TransResult × ℚ × ℚ) → ℚ × Option TransResult × ℚ × ℚ
  | [], st => st
  | expansion :: rest, st =>
    if cfg.tb_similarity ≤ st.1 then st
    else
      let st1 := tbTrial env text (max 0 (start_time - expansion)) segment_duration st
      if cfg.tb_similarity ≤ st1.1 then st1
      else
        let st2 := tbTrial env text (start_time + expansion) segment_duration st1
        tbSearch cfg env text start_time segment_duration rest st2

/-- `verify_segment_timing_time_based(segment, audio, model, config,
segment_index)` (time_based_realignment.py:105-286), returning the
(possibly adjusted) segment and the `adjusted` flag. -/
def verify_segment_timing_time_based (cfg : Config) (env : Env)
    (expansionValues : List ℚ) (segment : Seg) : Seg × Bool :=
  if (pyStrip segment.text).length < 2 then (segment, false)
  else
    let start_time := segment.start
    let end_time := segment.stop
    let text := segment.text
    let original_duration := end_time - start_time
    let text_length := ((pyStrip text).length : ℚ)
    let estimated_duration := text_length / 5
    let verification_duration := max original_duration estimated_duration
    let verification_end := start_time + verification_duration
    let lo := pyInt (start_time * 16000)
    let hi := pyInt (verification_end * 16000)
    if pySliceLen env.audioLen lo hi < 1600 then (segment, false)
    else
      let step2 : ℚ → Seg × Bool := fun initial_similarity =>
        let segment_duration := end_time - start_time
        let final := tbSearch cfg env text start_time segment_duration expansionValues
          (initial_similarity, none, start_time, end_time)
        match final.2.1 with
        | none => (segment, false)
        | some best_result =>
          if initial_similarity < final.1 then
            let best_start := final.2.2.1
            let best_end := final.2.2.2
            let all_words := (best_result.segments.map (·.words)).flatten
            let actual_start :=
              if best_result.segments.isEmpty then best_start
              else if all_words.isEmpty then best_start
              else best_start + (((all_words.get? 0).map (·.start)).getD 0)
            let actual_end :=
              if best_result.segments.isEmpty then best_end
              else if all_words.isEmpty then best_end
              else best_start + (((all_words.getLast?).map (·.stop)).getD (best_end - best_start))
            if actual_start ≠ start_time ∨ actual_end ≠ end_time then
              (⟨actual_start, actual_end, text, []⟩, true)
            else (segment, false)
          else (segment, false)
      match env.transcribe lo hi with
      | some result =>
        let initial_similarity := calculate_text_similarity text (pyStrip result.text)
        if cfg.tb_similarity ≤ initial_similarity then (segment, false)
        else step2 initial_similarity
      | none => step2 0

/-- The overlap-pair detection shared by both realigners
(time_based_realignment.py:356-373, duplicated verbatim at
text_search_realignment.py:291-308): for every adjusted index, test the
pair with the previous and with the next segment against `min_gap`. -/
def overlapPairs (cfg : Config) (realigned : List Seg) (adjusted_indices : List Nat) :
    List (Nat × Nat) :=
  adjusted_indices.flatMap (fun idx =>
    let d : Seg := ⟨0, 0, "", []⟩
    (if 0 < idx ∧
        decide ((realigned.getD idx d).start < (realigned.getD (idx - 1) d).stop + cfg.min_gap)
      then [(idx - 1, idx)] else []) ++
    (if idx < realigned.length - 1 ∧
        decide ((realigned.getD (idx + 1) d).start - cfg.min_gap < (realigned.getD idx d).stop)
      then [(idx, idx + 1)] else []))

/-- The boundary-fixing mutation loop shared by both realigners
(time_based_realignment.py:379-407, duplicated verbatim at
text_search_realignment.py:317-345), acting on the `realigned` array. -/
def overlapFix (cfg : Config) (env : Env) : Array Seg → List (Nat × Nat) → Array Seg
  | arr, [] => arr
  | arr, (prev_idx, curr_idx) :: rest =>
    let d : Seg := ⟨0, 0, "", []⟩
    let prev_seg := arr.getD prev_idx d
    let curr_seg := arr.getD curr_idx d
    match find_boundary_between_segments env prev_seg curr_seg with
    | some boundary =>
      let arr1 := arr.setD prev_idx ⟨prev_seg.start, boundary, prev_seg.text, prev_seg.words⟩
      let new_curr_start := boundary + cfg.min_gap
      let arr2 :=
        if new_curr_start < curr_seg.stop then
          arr1.setD curr_idx ⟨new_curr_start, curr_seg.stop, curr_seg.text, curr_seg.words⟩
        else arr1
      overlapFix cfg env arr2 rest
    | none =>
      let midpoint := (prev_seg.stop + curr_seg.start) / 2
      let arr1 := arr.setD prev_idx ⟨prev_seg.start, midpoint, prev_seg.text, prev_seg.words⟩
      let arr2 :=
        arr1.setD curr_idx ⟨midpoint + cfg.min_gap, curr_seg.stop, curr_seg.text, curr_seg.words⟩
      overlapFix cfg env arr2 rest

/-- The overlap post-pass (both realigners): nothing runs when no index was
adjusted. -/
def overlapPass (cfg : Config) (env : Env) (realigned : List Seg)
    (adjusted_indices : List Nat) : List Seg :=
  if adjusted_indices.isEmpty then realigned
  else (overlapFix cfg env realigned.toArray (overlapPairs cfg realigned adjusted_indices)).toList

/-- `realign_timing_time_based(sub_segments, model, media_path, config)`
(time_based_realignment.py:289-417).  The batch loop only batches the
printing; the per-segment verification is an in-order map. -/
def realign_timing_time_based (cfg : Config) (env : Env) (expansionValues : List ℚ)
    (sub_segments : List Seg) : List Seg :=
  if ¬ (env.modelPresent && env.mediaPresent) then sub_segments
  else if ¬ env.audioOk then sub_segments
  else
    let verified := sub_segments.map (verify_segment_timing_time_based cfg env expansionValues)
    let realigned := verified.map (·.1)
    let adjusted_indices := (verified.enum.filter (fun p => p.2.2)).map (·.1)
    overlapPass cfg env realigned adjusted_indices

/-- The inner window-growing loop of `find_text_in_words`
(src/modules/stage6_timing_realignment/utils.py:42-69): extend the word
window one word at a time (at most 15 words), keep the strictly best
match, return early (`Sum.inl`, from the whole function) on an excellent
match with a recorded best, and break on a window much longer than the
cleaned target.  `w0start` is the start time of the window's first word. -/
def ftwInner (target : String) (tclen : Nat) (offset w0start : ℚ) :
    List Word → String → ℚ × Option (ℚ × ℚ) → (ℚ × ℚ × ℚ) ⊕ (ℚ × Option (ℚ × ℚ))
  | [], _, st => .inr st
  | w :: rest, combined, st =>
    let combined' := combined ++ pyStrip w.word
    let similarity := calculate_text_similarity target combined'
    let st' := if st.1 < similarity then (similarity, some (w0start, w.stop)) else st
    if (9 : ℚ)/10 ≤ similarity then
      match st'.2 with
      | some bm => .inl (offset + bm.1, offset + bm.2, st'.1)
      | none =>
        if (tclen : ℚ) * (3/2) < (combined'.length : ℚ) then .inr st'
        else ftwInner target tclen offset w0start rest combined' st'
    else
      if (tclen : ℚ) * (3/2) < (combined'.length : ℚ) then .inr st'
      else ftwInner target tclen offset w0start rest combined' st'

/-- The outer sliding loop of `find_text_in_words` (utils.py:40-73): one
inner run per starting word, stopping early on a very good best. -/
def ftwOuter (target : String) (tclen : Nat) (offset : ℚ) :
    List Word → ℚ × Option (ℚ × ℚ) → (ℚ × ℚ × ℚ) ⊕ (ℚ × Option (ℚ × ℚ))
  | [], st => .inr st
  | w :: rest, st =>
    match ftwInner target tclen offset w.start ((w :: rest).take 15) "" st with
    | .inl early => .inl early
    | .inr st' =>
      if (17 : ℚ)/20 ≤ st'.1 then .inr st'
      else ftwOuter target tclen offset rest st'

/-- `find_text_in_words(target_text, words_with_timestamps, offset)`
(utils.py:10-83).  The Python `(start, end, similarity)` triple with the
`(None, None, s)` case is modelled as `(Option (start × end)) × similarity`. -/
def find_text_in_words (target_text : String) (words : List Word) (offset : ℚ) :
    Option (ℚ × ℚ) × ℚ :=
  if words.isEmpty || (target_text = "") then (none, 0)
  else
    let target_clean := simClean target_text.data
    if target_clean.isEmpty then (none, 0)
    else
      match ftwOuter target_text target_clean.length offset words (0, none) with
      | .inl (s, e, sim) => (some (s, e), sim)
      | .inr st =>
        match st.2 with
        | some bm =>
          if (3 : ℚ)/5 ≤ st.1 then (some (offset + bm.1, offset + bm.2), st.1)
          else (none, st.1)
        | none => (none, st.1)

/-- The inner segment-combining loop of `find_text_in_transcription`
(src/modules/stage6_timing_realignment/text_search_realignment.py:47-68):
combine up to 5 consecutive transcription segments, keep the strictly
best, return early on similarity `≥ 0.9`, break on a combination much
longer than the raw target.  `s0start` is the first segment's start. -/
def ftsInner (target : String) (tlen : Nat) (s0start : ℚ) :
    List TransSeg → String → ℚ × Option (ℚ × ℚ) → (ℚ × ℚ × ℚ) ⊕ (ℚ × Option (ℚ × ℚ))
  | [], _, st => .inr st
  | sg :: rest, combined, st =>
    let combined' := combined ++ pyStrip sg.text
    let similarity := calculate_text_similarity target combined'
    let st' := if st.1 < similarity then (similarity, some (s0start, sg.stop)) else st
    if (9 : ℚ)/10 ≤ similarity then
      match st'.2 with
      | some bm => .inl (bm.1, bm.2, st'.1)
      | none =>
        if (tlen : ℚ) * (3/2) < (combined'.length : ℚ) then .inr st'
        else ftsInner target tlen s0start rest combined' st'
    else
      if (tlen : ℚ) * (3/2) < (combined'.length : ℚ) then .inr st'
      else ftsInner target tlen s0start rest combined' st'

/-- The outer loop of `find_text_in_transcription`
(text_search_realignment.py:41-72). -/
def ftsOuter (target : String) (tlen : Nat) :
    List TransSeg → ℚ × Option (ℚ × ℚ) → (ℚ × ℚ × ℚ) ⊕ (ℚ × Option (ℚ × ℚ))
  | [], st => .inr st
  | sg :: rest, st =>
    match ftsInner target tlen sg.start ((sg :: rest).take 5) "" st with
    | .inl early => .inl early
    | .inr st' =>
      if (17 : ℚ)/20 ≤ st'.1 then .inr st'
      else ftsOuter target tlen rest st'

/-- `find_text_in_transcription(target_text, whisper_result, search_window)`
(text_search_realignment.py:13-92); `search_window` is unused in the body. -/
def find_text_in_transcription (target_text : String) (whisper_result : TransResult) :
    Option (ℚ × ℚ) × ℚ :=
  let target_clean := simClean target_text.data
  if target_clean.isEmpty then (none, 0)
  else
    match ftsOuter target_text target_text.length whisper_result.segments (0, none) with
    | .inl (s, e, sim) => (some (s, e), sim)
    | .inr st =>
      let best_similarity := st.1
      match st.2 with
      | some bm =>
        if (3 : ℚ)/5 ≤ best_similarity then (some (bm.1, bm.2), best_similarity)
        else
          -- best_similarity < 0.6: word-level fallback
          let all_words := (whisper_result.segments.map (·.words)).flatten
          if ¬ all_words.isEmpty then
            let wres := find_text_in_words target_text all_words 0
            if best_similarity < wres.2 then wres
            else (none, best_similarity)
          else (none, best_similarity)
      | none =>
        let all_words := (whisper_result.segments.map (·.words)).flatten
        if ¬ all_words.isEmpty then
          let wres := find_text_in_words target_text all_words 0
          if best_similarity < wres.2 then wres
          else (none, best_similarity)
        else (none, best_similarity)

/-- The expansion loop of `realign_segment_timing_text_search`
(text_search_realignment.py:152-185).  The state is
`(best_similarity, best_match)` with
`best_match = (found_start, found_end, search_start)`. -/
def tsSearchLoop (cfg : Config) (env : Env) (text : String) (start_time end_time : ℚ) :
    List ℚ → ℚ × Option (ℚ × ℚ × ℚ) → ℚ × Option (ℚ × ℚ × ℚ)
  | [], st => st
  | expansion :: rest, st =>
    if cfg.ts_similarity ≤ st.1 then st
    else
      let search_start := max 0 (start_time - expansion)
      let search_end := end_time + expansion
      let lo := pyInt (search_start * 16000)
      let hi := pyInt (search_end * 16000)
      if pySliceLen env.audioLen lo hi < 1600 then
        tsSearchLoop cfg env text start_time end_time rest st
      else
        match env.transcribe lo hi with
        | none => tsSearchLoop cfg env text start_time end_time rest st
        | some result =>
          let fr := find_text_in_transcription text result
          let st' :=
            match fr.1 with
            | some fse => if st.1 < fr.2 then (fr.2, some (fse.1, fse.2, search_start)) else st
            | none => st
          tsSearchLoop cfg env text start_time end_time rest st'

/-- `realign_segment_timing_text_search(segment, audio, model, config,
segment_index, all_segments)` (text_search_realignment.py:95-232). -/
def realign_segment_timing_text_search (cfg : Config) (env : Env)
    (expansionValues : List ℚ) (segment : Seg) (segment_index : Nat)
    (all_segments : List Seg) : Seg × Bool :=
  if (pyStrip segment.text).length < 2 then (segment, false)
  else
    let res := tsSearchLoop cfg env segment.text segment.start segment.stop
      expansionValues (0, none)
    match res.2 with
    | none => (segment, false)
    | some fse =>
      let adjusted_start := fse.2.2 + fse.1
      let adjusted_end := fse.2.2 + fse.2.1
      let start_diff := |adjusted_start - segment.start|
      let end_diff := |adjusted_end - segment.stop|
      if start_diff < cfg.adjustment_threshold ∧ end_diff < cfg.adjustment_threshold then
        (segment, false)
      else
        let d : Seg := ⟨0, 0, "", []⟩
        let adjusted_start :=
          if 0 < segment_index then
            let prev_end := (all_segments.getD (segment_index - 1) d).stop
            if adjusted_start < prev_end + cfg.min_gap then prev_end + cfg.min_gap
            else adjusted_start
          else adjusted_start
        let adjusted_end :=
          if segment_index < all_segments.length - 1 then
            let next_start := (all_segments.getD (segment_index + 1) d).start
            if next_start - cfg.min_gap < adjusted_end then next_start - cfg.min_gap
            else adjusted_end
          else adjusted_end
        if adjusted_end ≤ adjusted_start then (segment, false)
        else (⟨adjusted_start, adjusted_end, segment.text, []⟩, true)

/-- The sequential loop of `realign_timing_text_search`
(text_search_realignment.py:270-281): each segment sees
`realigned + sub_segments[seg_index:]` as its context. -/
def tsLoop (cfg : Config) (env : Env) (expansionValues : List ℚ) :
    List Seg → Nat → List Seg → List Seg × List Nat
  | _, _, [] => ([], [])
  | done, idx, s :: rest =>
    let ctx := done ++ (s :: rest)
    let r := realign_segment_timing_text_search cfg env expansionValues s idx ctx
    let t := tsLoop cfg env expansionValues (done ++ [r.1]) (idx + 1) rest
    (r.1 :: t.1, (if r.2 then [idx] else []) ++ t.2)

/-- `realign_timing_text_search(sub_segments, model, media_path, config)`
(text_search_realignment.py:235-354). -/
def realign_timing_text_search (cfg : Config) (env : Env) (expansionValues : List ℚ)
    (sub_segments : List Seg) : List Seg :=
  if ¬ (env.modelPresent && env.mediaPresent) then sub_segments
  else if ¬ env.audioOk then sub_segments
  else
    let r := tsLoop cfg env expansionValues [] 0 sub_segments
    overlapPass cfg env r.1 r.2

/-!
## Concrete scenarios used by the claim theorems
-/

/-- Default segment used for indexed access (`getD`). -/
def segD : Seg := ⟨0, 0, "", []⟩

/-- An environment with no model, media or audio. -/
def env0 : Env :=
  { modelPresent := false, mediaPresent := false, audioOk := false, audioLen := 0,
    transcribe := fun _ _ => none, provider := none }

/-- Configuration for the C3 scenario: phrase filter enabled with the
stock outro phrase and re-validation on. -/
def c3cfg : Config :=
  { phrase_enable := true, phrases := ["ご視聴ありがとうございました"],
    phrase_enable_revalidate := true }

/-- Environment for the C3 scenario: the re-transcription of any slice is
`こんにちは` (materially different from the matched phrase). -/
def c3env : Env :=
  { modelPresent := true, mediaPresent := true, audioOk := true, audioLen := 16000000,
    transcribe := fun _ _ =>
      some ⟨"こんにちは", [⟨"こんにちは", 0, 2, [⟨"こんにちは", 0, 2⟩]⟩]⟩,
    provider := none }

/-- The C3 input segment: it matches the configured phrase exactly. -/
def c3seg : Seg := ⟨0, 2, "ご視聴ありがとうございました", []⟩

/-- Configuration for the C2 scenario (the setup of
`test_refilters_after_timing_validation_removes_hallucinations` in
src/tests/unit/modules/stage5_hallucination_filtering/test_timing_validation_refilter.py):
phrase filter and timing validation enabled, re-validation on. -/
def c2cfg : Config :=
  { phrase_enable := true, phrases := ["ご視聴ありがとうございました"],
    timing_enable := true, timing_enable_revalidate := true }

/-- Environment for the C2 scenario: re-transcribing the suspicious span
yields the hallucination phrase. -/
def c2env : Env :=
  { modelPresent := true, mediaPresent := true, audioOk := true, audioLen := 16000000,
    transcribe := fun _ _ => some ⟨"", [⟨"ご視聴ありがとうございました", 0, 1, []⟩]⟩,
    provider := none }

/-- The C2 input (from the unit test): the middle segment has suspicious
timing (28 chars in 1 s > 20 chars/s). -/
def c2segs : List Seg :=
  [⟨0, 1, "こんにちは", []⟩, ⟨1, 2, "fast_segment_with_wrong_text", []⟩,
   ⟨2, 3, "さようなら", []⟩]

/-- Environment for the C1 scenarios: model, media and audio are present.
(The one-character segment texts below make both verification passes
return unchanged before consulting the oracle, exactly as the source
skips "very short segments".) -/
def c1env : Env :=
  { modelPresent := true, mediaPresent := true, audioOk := true, audioLen := 16000000,
    transcribe := fun _ _ => none, provider := none }

/-- An expansion schedule (the concrete values are irrelevant to the
claims). -/
def c1exps : List ℚ := [1, 2, 3]

/-- C1 counterexample input: two overlapping segments that every stage
passes through unchanged. -/
def c1segs : List Seg := [⟨0, 10, "あ", []⟩, ⟨5, 15, "い", []⟩]

/-- C1 witness input: the same segments without overlap. -/
def c1wsegs : List Seg := [⟨0, 5, "あ", []⟩, ⟨6, 11, "い", []⟩]

/-- Configuration with LLM splitting enabled (C4/C5 scenarios). -/
def c5cfg : Config := { enable_llm := true }

/-- Environment whose LLM provider answers every prompt with a fixed
non-empty response. -/
def c5env : Env :=
  { modelPresent := true, mediaPresent := true, audioOk := true, audioLen := 16000000,
    transcribe := fun _ _ => none, provider := some (fun _ => "resp") }

/-- A 33-character text (exceeds the default `max_line_length` of 30). -/
def c5text : String := "あああああああああああああああああああああああああああああああああ"

/-!
## Theorems

Supporting lemmas for the `SequenceMatcher` embedding, then one theorem
per claim.
-/

theorem runlen_le_fst (a b : List Char) (alo blo : Nat) :
    ∀ i j, runlen a b alo blo i j ≤ i + 1 := by
  intro i
  induction i with
  | zero => intro j; simp only [runlen]; split <;> omega
  | succ n ih =>
    intro j
    cases j with
    | zero => simp only [runlen]; split <;> omega
    | succ m =>
      simp only [runlen]
      split
      · have := ih m; omega
      · omega

theorem runlen_le_snd (a b : List Char) (alo blo : Nat) :
    ∀ i j, runlen a b alo blo i j ≤ j + 1 := by
  intro i
  induction i with
  | zero => intro j; simp only [runlen]; split <;> omega
  | succ n ih =>
    intro j
    cases j with
    | zero => simp only [runlen]; split <;> omega
    | succ m =>
      simp only [runlen]
      split
      · have := ih m; omega
      · omega

theorem runlen_diag (a : List Char) :
    ∀ i, i < a.length → runlen a a 0 0 i i = i + 1 := by
  intro i
  induction i with
  | zero =>
    intro h
    simp [runlen, h]
  | succ n ih =>
    intro h
    simp [runlen, h, ih (Nat.lt_of_succ_lt h)]

theorem foldl_lmStep_frozen (a b : List Char) (alo blo m : Nat) :
    ∀ (l : List (Nat × Nat)) (init : Nat × Nat × Nat),
      (∀ p ∈ l, runlen a b alo blo p.1 p.2 ≤ m) → m ≤ init.2.2 →
      l.foldl (lmStep a b alo blo) init = init := by
  intro l
  induction l with
  | nil => intro init _ _; rfl
  | cons p rest ih =>
    intro init hall hinit
    have hp : runlen a b alo blo p.1 p.2 ≤ m := hall p (List.mem_cons_self _ _)
    have hstep : lmStep a b alo blo init p = init := by
      unfold lmStep
      rw [if_neg]
      omega
    rw [List.foldl_cons, hstep]
    exact ih init (fun q hq => hall q (List.mem_cons_of_mem _ hq)) hinit

theorem foldl_lmStep_reach (a b : List Char) (alo blo m : Nat) (pmax : Nat × Nat) :
    ∀ (l : List (Nat × Nat)) (init : Nat × Nat × Nat),
      (∀ p ∈ l, runlen a b alo blo p.1 p.2 ≤ m) →
      (∀ p ∈ l, runlen a b alo blo p.1 p.2 = m → p = pmax) →
      pmax ∈ l → runlen a b alo blo pmax.1 pmax.2 = m → init.2.2 < m →
      l.foldl (lmStep a b alo blo) init = (pmax.1 + 1 - m, pmax.2 + 1 - m, m) := by
  intro l
  induction l with
  | nil => intro init _ _ hmem; exact absurd hmem (List.not_mem_nil _)
  | cons p rest ih =>
    intro init hall huniq hmem hrun hinit
    by_cases hp : runlen a b alo blo p.1 p.2 = m
    · have hpm : p = pmax := huniq p (List.mem_cons_self _ _) hp
      subst hpm
      have hstep : lmStep a b alo blo init p = (p.1 + 1 - m, p.2 + 1 - m, m) := by
        unfold lmStep
        rw [hp, if_pos hinit]
      rw [List.foldl_cons, hstep]
      exact foldl_lmStep_frozen a b alo blo m rest _
        (fun q hq => hall q (List.mem_cons_of_mem _ hq)) (le_refl m)
    · have hmem' : pmax ∈ rest := by
        rcases List.mem_cons.mp hmem with h | h
        · exact absurd (h ▸ hrun) hp
        · exact h
      have hlt : runlen a b alo blo p.1 p.2 < m :=
        lt_of_le_of_ne (hall p (List.mem_cons_self _ _)) hp
      have hstep2 : (lmStep a b alo blo init p).2.2 < m := by
        by_cases hc : init.2.2 < runlen a b alo blo p.1 p.2
        · simpa [lmStep, hc] using hlt
        · simpa [lmStep, hc] using hinit
      rw [List.foldl_cons]
      exact ih _ (fun q hq => hall q (List.mem_cons_of_mem _ hq))
        (fun q hq => huniq q (List.mem_cons_of_mem _ hq)) hmem' hrun hstep2

theorem lmPairs_bounds (a b : List Char) (alo ahi blo bhi : Nat) (p : Nat × Nat)
    (hp : p ∈ lmPairs a b alo ahi blo bhi) :
    alo ≤ p.1 ∧ p.1 < ahi ∧ blo ≤ p.2 ∧ p.2 < bhi := by
  unfold lmPairs at hp
  rcases List.mem_flatMap.mp hp with ⟨i, hi, hmap⟩
  rcases List.mem_map.mp hmap with ⟨j, hj, hpe⟩
  have hi' := List.mem_range'_1.mp hi
  have hj' := List.mem_range'_1.mp (List.mem_of_mem_filter hj)
  subst hpe
  refine ⟨hi'.1, ?_, hj'.1, ?_⟩ <;> omega

theorem diag_mem_lmPairs (a : List Char) (n : Nat) (hn : 0 < n) (hlen : n = a.length) :
    ((n - 1, n - 1) : Nat × Nat) ∈ lmPairs a a 0 n 0 n := by
  unfold lmPairs
  refine List.mem_flatMap.mpr ⟨n - 1, ?_, ?_⟩
  · exact List.mem_range'_1.mpr ⟨Nat.zero_le _, by omega⟩
  · refine List.mem_map.mpr ⟨n - 1, ?_, rfl⟩
    refine List.mem_filter.mpr ⟨List.mem_range'_1.mpr ⟨Nat.zero_le _, by omega⟩, ?_⟩
    exact decide_eq_true rfl

theorem lmBest_self (a : List Char) (hn : 0 < a.length) :
    lmBest a a 0 a.length 0 a.length = (0, 0, a.length) := by
  unfold lmBest
  have hres := foldl_lmStep_reach a a 0 0 a.length (a.length - 1, a.length - 1)
    (lmPairs a a 0 a.length 0 a.length) (0, 0, 0)
    (fun p hp => by
      have hb := lmPairs_bounds a a 0 a.length 0 a.length p hp
      have h1 := runlen_le_fst a a 0 0 p.1 p.2
      omega)
    (fun p hp hrun => by
      have hb := lmPairs_bounds a a 0 a.length 0 a.length p hp
      have h1 := runlen_le_fst a a 0 0 p.1 p.2
      have h2 := runlen_le_snd a a 0 0 p.1 p.2
      have : p.1 = a.length - 1 := by omega
      have : p.2 = a.length - 1 := by omega
      cases p
      simp_all)
    (diag_mem_lmPairs a a.length hn rfl)
    (by
      have hd := runlen_diag a (a.length - 1) (by omega)
      dsimp only
      omega)
    hn
  rw [hres]
  have h0 : a.length - 1 + 1 - a.length = 0 := by omega
  rw [h0]

theorem extendLeft_zero (a b : List Char) (blo j k : Nat) :
    extendLeft a b 0 blo 0 j k = (0, j, k) := by
  rw [extendLeft]
  rw [dif_neg]
  intro h
  exact absurd h.1 (lt_irrefl 0)

theorem extendRight_stop (a b : List Char) (ahi bhi besti bestj k : Nat)
    (h : ¬ besti + k < ahi ∨ ¬ bestj + k < bhi) :
    extendRight a b ahi bhi besti bestj k = k := by
  rw [extendRight]
  rw [dif_neg]
  intro hc
  rcases h with h | h
  · exact h hc.1
  · exact h hc.2.1

theorem findLongestMatch_self (a : List Char) (hn : 0 < a.length) :
    findLongestMatch a a 0 a.length 0 a.length = (0, 0, a.length) := by
  unfold findLongestMatch
  rw [lmBest_self a hn]
  dsimp only
  rw [extendLeft_zero]
  dsimp only
  rw [extendRight_stop]
  left
  omega

theorem lmPairs_empty (a b : List Char) (alo ahi blo bhi : Nat)
    (h : ahi ≤ alo ∨ bhi ≤ blo) : lmPairs a b alo ahi blo bhi = [] := by
  unfold lmPairs
  rcases h with h | h
  · rw [Nat.sub_eq_zero_of_le h]
    rfl
  · rw [Nat.sub_eq_zero_of_le h]
    simp

theorem findLongestMatch_empty (a b : List Char) (alo ahi blo bhi : Nat)
    (h : ahi ≤ alo ∨ bhi ≤ blo) :
    findLongestMatch a b alo ahi blo bhi = (alo, blo, 0) := by
  unfold findLongestMatch lmBest
  rw [lmPairs_empty a b alo ahi blo bhi h]
  rw [List.foldl_nil]
  dsimp only
  rw [extendLeft]
  rw [dif_neg (by intro hc; exact absurd hc.1 (lt_irrefl alo))]
  dsimp only
  rw [extendRight_stop]
  omega

theorem matchTotalF_degenerate (a b : List Char) :
    ∀ (fuel alo ahi blo bhi : Nat), ahi ≤ alo ∨ bhi ≤ blo →
      matchTotalF a b fuel alo ahi blo bhi = 0 := by
  intro fuel
  cases fuel with
  | zero => intro _ _ _ _ _; rfl
  | succ f =>
    intro alo ahi blo bhi h
    simp only [matchTotalF]
    rw [findLongestMatch_empty a b alo ahi blo bhi h]
    simp

theorem matchTotal_self (a : List Char) (hn : 0 < a.length) :
    matchTotal a a = a.length := by
  unfold matchTotal
  obtain ⟨f, hf⟩ : ∃ f, a.length + a.length = f + 1 := ⟨a.length + a.length - 1, by omega⟩
  rw [hf]
  simp only [matchTotalF]
  rw [findLongestMatch_self a hn]
  simp only []
  rw [if_neg (by omega)]
  rw [matchTotalF_degenerate a a f 0 0 0 0 (Or.inl (le_refl 0))]
  rw [matchTotalF_degenerate a a f (0 + a.length) a.length (0 + a.length) a.length
    (Or.inl (by omega))]
  omega

theorem ratioVal_self (a : List Char) (hn : a ≠ []) : ratioVal a a = 1 := by
  have hlen : 0 < a.length := List.length_pos.mpr hn
  unfold ratioVal
  rw [if_neg (by omega)]
  rw [matchTotal_self a hlen]
  have h2 : ((a.length + a.length : ℕ) : ℚ) ≠ 0 := by
    push_cast
    intro hc
    have : (a.length : ℚ) = 0 := by linarith
    exact_mod_cast absurd this (by exact_mod_cast Nat.pos_iff_ne_zero.mp hlen)
  field_simp
  ring

theorem ctsim_self (x : String) (h : simClean x.data ≠ []) :
    calculate_text_similarity x x = 1 := by
  unfold calculate_text_similarity
  rw [if_neg (by simp [h])]
  exact ratioVal_self _ h

theorem ctsim_empty (y : String) : calculate_text_similarity "" y = 0 := by
  rfl

/-- Claim C4: whenever LLM splitting is enabled, a provider is available and
its `generate` returns a non-empty response, `split_long_segment_with_llm`
returns the single original segment unsplit — the keyword-argument call
`parse_json_response(response_text, prompt=..., context=...)` cannot bind
against the one-parameter definition of `parse_json_response`, and the
resulting `TypeError` is absorbed by the catch-all fallback. -/
theorem C4_parse_kwargs_fallback (text : String) (st en : ℚ) (words : List Word)
    (cfg : Config) (env : Env) (gen : String → String)
    (henable : cfg.enable_llm = true) (hprov : env.provider = some gen)
    (hresp : ∀ p, gen p ≠ "") :
    kwargsBindOk parse_json_response_params ["prompt", "context"] = false ∧
    (split_long_segment_with_llm text st en words cfg env).segments =
      [⟨st, en, text, words⟩] := by
  constructor
  · decide
  · unfold split_long_segment_with_llm
    rw [hprov]
    dsimp only
    split_ifs with h1 h2 h3
    · rfl
    · exact absurd h2 (hresp _)
    · rfl
    · rfl

/-- Witness for C4 at a concrete 33-character segment with a provider that
answers `"resp"`. -/
theorem C4_witness :
    (split_long_segment_with_llm c5text 0 1 [] c5cfg c5env).segments =
      [⟨0, 1, c5text, []⟩] :=
  (C4_parse_kwargs_fallback c5text 0 1 [] c5cfg c5env (fun _ => "resp") rfl rfl
    (fun p => by simp)).2

/-- Counterexample to claim C5 as stated: a segment whose
characters-per-second ratio (330) far exceeds the configured maximum (20)
still has the LLM provider's `generate` invoked — the timing-feasibility
check does not precede the LLM call. -/
theorem C5_counterexample :
    (20 : ℚ) < ((pyStrip c5text).length : ℚ) / ((1 : ℚ)/10 - 0) ∧
    ((1 : ℚ)/10 - 0) * 20 < ((pyStrip c5text).length : ℚ) ∧
    (split_long_segment_with_llm c5text 0 (1/10) [] c5cfg c5env).generateCalled = true := by
  refine ⟨of_decide_eq_true (by with_unfolding_all rfl),
    of_decide_eq_true (by with_unfolding_all rfl), ?_⟩
  with_unfolding_all rfl

/-- Claim C5 (amended): for every segment with infeasible timing whose
stripped text exceeds `max_line_length`, with LLM splitting enabled, a
provider available and a non-empty response, `split_long_segment_with_llm`
invokes `generate` (the timing checks sit after the call) and still
returns the segment unsplit. -/
theorem C5_amended_generate_precedes_timing_check (text : String) (st en : ℚ)
    (words : List Word) (cfg : Config) (env : Env) (gen : String → String)
    (henable : cfg.enable_llm = true) (hprov : env.provider = some gen)
    (hresp : ∀ p, gen p ≠ "")
    (hlong : cfg.max_line_length < (pyStrip text).length)
    (_hinfeasible :
      cfg.max_chars_per_second < ((pyStrip text).length : ℚ) / (en - st) ∨
      (en - st) * cfg.max_chars_per_second < ((pyStrip text).length : ℚ)) :
    (split_long_segment_with_llm text st en words cfg env).generateCalled = true ∧
    (split_long_segment_with_llm text st en words cfg env).segments =
      [⟨st, en, text, words⟩] := by
  unfold split_long_segment_with_llm
  rw [hprov]
  dsimp only
  split_ifs with h1 h2 h3
  · omega
  · exact absurd h2 (hresp _)
  · exact ⟨rfl, rfl⟩
  · exact ⟨rfl, rfl⟩

/-- Witness for the amended C5 at the infeasible concrete segment. -/
theorem C5_witness :
    (split_long_segment_with_llm c5text 0 ((1 : ℚ)/10) [] c5cfg c5env).generateCalled = true ∧
    (split_long_segment_with_llm c5text 0 ((1 : ℚ)/10) [] c5cfg c5env).segments =
      [⟨0, (1 : ℚ)/10, c5text, []⟩] :=
  C5_amended_generate_precedes_timing_check c5text 0 (1/10) [] c5cfg c5env
    (fun _ => "resp") rfl rfl (fun p => by simp) (by decide)
    (Or.inr (of_decide_eq_true (by with_unfolding_all rfl)))

/-- Counterexample to claim C6 as stated: `x = "。"` is a non-empty string
with `calculate_text_similarity x x = 0 ≠ 1`, because the punctuation
strip empties it. -/
theorem C6_counterexample : ("。" : String) ≠ "" ∧ calculate_text_similarity "。" "。" ≠ 1 := by
  constructor
  · decide
  · rw [show calculate_text_similarity "。" "。" = 0 from rfl]
    norm_num

/-- Claim C6 (amended): `calculate_text_similarity x x = 1` for every `x`
whose cleaned form (after removing `、。！？` and whitespace) is non-empty,
and `calculate_text_similarity "" y = 0` for every `y`. -/
theorem C6_similarity_identity_and_empty :
    (∀ x : String, simClean x.data ≠ [] → calculate_text_similarity x x = 1) ∧
    (∀ y : String, calculate_text_similarity "" y = 0) :=
  ⟨fun x h => ctsim_self x h, fun y => ctsim_empty y⟩

/-- Witness for the amended C6 at `x = "あい"`. -/
theorem C6_witness :
    simClean "あい".data ≠ [] ∧ calculate_text_similarity "あい" "あい" = 1 :=
  ⟨by decide, C6_similarity_identity_and_empty.1 "あい" (by decide)⟩

/-- Claim C7: for every original text and non-empty list of LLM pieces,
a joined cleaned length below 80% or above 130% of the cleaned original
length forces rejection regardless of similarity, and acceptance implies
similarity `≥ 0.85` together with the length ratio inside `[0.8, 1.3]`. -/
theorem C7_llm_split_length_gate (original : String) (pieces : List String)
    (hne : pieces ≠ []) :
    ((((clean_for_matching (String.join pieces)).length : ℚ) <
        ((clean_for_matching original).length : ℚ) * (8/10) ∨
      ((clean_for_matching original).length : ℚ) * (13/10) <
        ((clean_for_matching (String.join pieces)).length : ℚ)) →
      validate_llm_segments original pieces = false) ∧
    (validate_llm_segments original pieces = true →
      (17 : ℚ)/20 ≤ calculate_text_similarity original (String.join pieces) ∧
      ((clean_for_matching original).length : ℚ) * (8/10) ≤
        ((clean_for_matching (String.join pieces)).length : ℚ) ∧
      ((clean_for_matching (String.join pieces)).length : ℚ) ≤
        ((clean_for_matching original).length : ℚ) * (13/10)) := by
  unfold validate_llm_segments
  rw [if_neg (by simpa using hne)]
  dsimp only
  split_ifs with h1 h2 h3 h4
  · exact ⟨fun _ => rfl, fun hc => absurd hc (by simp)⟩
  · exact ⟨fun _ => rfl, fun hc => absurd hc (by simp)⟩
  · exact ⟨fun _ => rfl, fun hc => absurd hc (by simp)⟩
  · exact ⟨fun _ => rfl, fun hc => absurd hc (by simp)⟩
  · refine ⟨fun habs => ?_,
      fun _ => ⟨by linarith [not_lt.mp h4], by linarith [not_lt.mp h2],
        by linarith [not_lt.mp h3]⟩⟩
    rcases habs with habs | habs
    · exact absurd habs h2
    · exact absurd habs h3

/-- Witness for C7: a 2-character piece list against a 16-character
original is rejected. -/
theorem C7_witness :
    (["こん"] : List String) ≠ [] ∧
    validate_llm_segments "こんにちはみなさんおげんきですか" ["こん"] = false :=
  ⟨by decide,
    (C7_llm_split_length_gate "こんにちはみなさんおげんきですか" ["こん"]
      (by decide)).1 (Or.inl (of_decide_eq_true (by with_unfolding_all rfl)))⟩

set_option maxRecDepth 8000 in
/-- Claim C3 (code bug): with re-validation enabled, a pattern-matching
segment whose re-transcription is materially different (similarity
`< 0.75`) yields TWO output segments — the re-transcribed text AND the
original — because the false-positive branch of
`remove_hallucination_phrases` appends without `continue`
(phrase_filter.py:150/157), contradicting its own docstring
("kept with new text"). -/
theorem C3_false_positive_keeps_both :
    remove_hallucination_phrases c3cfg c3env [c3seg] =
      [⟨0, 2, "こんにちは", [⟨"こんにちは", 0, 2⟩]⟩, c3seg] ∧
    calculate_text_similarity (normalize_text c3seg.text) (normalize_text "こんにちは") <
      (3 : ℚ)/4 ∧
    matchesAnyPattern c3cfg (normalize_text c3seg.text) = true :=
  ⟨by with_unfolding_all rfl,
    of_decide_eq_true (by with_unfolding_all rfl),
    by decide⟩

set_option maxRecDepth 8000 in
/-- Claim C2 (code bug): `filter_hallucinations` never re-runs the
phrase/duplicate filters after the timing validator, so a re-transcribed
text that matches an enabled hallucination pattern stays in the stage
output (three segments instead of the two the unit test
`test_refilters_after_timing_validation_removes_hallucinations`
expects). -/
theorem C2_substituted_hallucination_persists :
    (filter_hallucinations c2cfg c2env c2segs).map Seg.text =
      ["こんにちは", "ご視聴ありがとうございました", "さようなら"] ∧
    matchesAnyPattern c2cfg (normalize_text "ご視聴ありがとうございました") = true :=
  ⟨by with_unfolding_all rfl, by decide⟩

set_option maxRecDepth 8000 in
/-- Counterexample to claim C1 as stated: two overlapping segments pass
through `filter_hallucinations` and both realignment strategies unchanged
(nothing is adjusted, so the overlap pass never runs) and the output's
adjacent pair has `b.start < a.end`. -/
theorem C1_counterexample :
    filter_hallucinations ({} : Config) c1env c1segs = c1segs ∧
    realign_timing_time_based ({} : Config) c1env c1exps
      (filter_hallucinations ({} : Config) c1env c1segs) = c1segs ∧
    realign_timing_text_search ({} : Config) c1env c1exps
      (filter_hallucinations ({} : Config) c1env c1segs) = c1segs ∧
    (c1segs.getD 1 segD).start < (c1segs.getD 0 segD).stop :=
  ⟨by with_unfolding_all rfl, by with_unfolding_all rfl, by with_unfolding_all rfl,
    of_decide_eq_true (by with_unfolding_all rfl)⟩

theorem string_join_pair (x y : String) : String.join [x, y] = x ++ y := by
  cases x
  cases y
  rfl

theorem finalizeGroup_pair (a b : Seg) :
    finalizeGroup a [b] =
      ⟨a.start, b.stop, pyStrip a.text ++ pyStrip b.text,
        if a.words ≠ [] ∧ b.words ≠ [] then a.words ++ b.words else []⟩ := by
  unfold finalizeGroup
  simp only [List.getLast, List.map_cons, List.map_nil, string_join_pair,
    List.all_cons, List.all_nil, Bool.and_true, List.flatten_cons, List.flatten_nil,
    List.append_nil]
  congr 1
  exact if_congr (by simp [List.isEmpty_iff]) rfl rfl

/-- Claim C8: `merge_incomplete_segments` maps the empty input to the
empty output, passes a single segment through unchanged, and merges an
adjacent pair exactly when the earlier stripped text ends with a
configured incomplete marker, the gap is strictly below `max_merge_gap`,
and the combined stripped length is at most `max_line_length`; a gap at
or above `max_merge_gap` therefore always prevents the merge. -/
theorem C8_merge_pair_conditions (cfg : Config) (a b : Seg) :
    merge_incomplete_segments [] cfg = [] ∧
    merge_incomplete_segments [a] cfg = [a] ∧
    merge_incomplete_segments [a, b] cfg =
      (if (cfg.incomplete_markers.any (fun m => pyEndsWith (pyStrip a.text) m)) = true ∧
          b.start - a.stop < cfg.max_merge_gap ∧
          (pyStrip a.text).length + (pyStrip b.text).length ≤ cfg.max_line_length
       then [⟨a.start, b.stop, pyStrip a.text ++ pyStrip b.text,
              if a.words ≠ [] ∧ b.words ≠ [] then a.words ++ b.words else []⟩]
       else [a, b]) := by
  refine ⟨rfl, rfl, ?_⟩
  have hcond : (shouldMergeSeg cfg a b = true) ↔
      ((cfg.incomplete_markers.any (fun m => pyEndsWith (pyStrip a.text) m)) = true ∧
        b.start - a.stop < cfg.max_merge_gap ∧
        (pyStrip a.text).length + (pyStrip b.text).length ≤ cfg.max_line_length) := by
    simp [shouldMergeSeg, and_assoc]
  by_cases h : shouldMergeSeg cfg a b = true
  · rw [if_pos (hcond.mp h)]
    show mergeGroupsLoop cfg a a [] [b] = _
    unfold mergeGroupsLoop
    rw [if_pos h]
    unfold mergeGroupsLoop
    rw [List.nil_append, finalizeGroup_pair]
  · rw [if_neg (fun hc => h (hcond.mpr hc))]
    show mergeGroupsLoop cfg a a [] [b] = _
    unfold mergeGroupsLoop
    rw [if_neg h]
    rfl

theorem validate_filter_eq (cfg : Config) (env : Env) : ∀ segs : List Seg,
    validate_segment_timing cfg env segs =
      validate_segment_timing cfg env (segs.filter (fun s => decide (s.start < s.stop))) := by
  intro segs
  induction segs with
  | nil => rfl
  | cons s rest ih =>
    by_cases hd : s.stop - s.start ≤ 0
    · have hf : (decide (s.start < s.stop)) = false := by
        simp only [decide_eq_false_iff_not, not_lt]
        linarith
      rw [List.filter_cons, hf]
      simp only [Bool.false_eq_true, if_false]
      conv_lhs => rw [validate_segment_timing]
      rw [if_pos hd]
      exact ih
    · have hf : (decide (s.start < s.stop)) = true := by
        simp only [decide_eq_true_eq]
        linarith
      rw [List.filter_cons, hf]
      simp only [if_true]
      conv_lhs => rw [validate_segment_timing]
      conv_rhs => rw [validate_segment_timing]
      rw [if_neg hd, if_neg hd, ih]

theorem validate_output_positive (cfg : Config) (env : Env) : ∀ (segs : List Seg)
    (s : Seg), s ∈ (validate_segment_timing cfg env segs).validated → s.start < s.stop := by
  intro segs
  induction segs with
  | nil => intro s hs; simp [validate_segment_timing] at hs
  | cons t rest ih =>
    intro s hs
    rw [validate_segment_timing] at hs
    by_cases hd : t.stop - t.start ≤ 0
    · rw [if_pos hd] at hs
      exact ih s hs
    · rw [if_neg hd] at hs
      dsimp only at hs
      split at hs
      · split at hs
        · split at hs
          · exact ih s hs
          · rcases List.mem_cons.mp hs with h | h
            · subst h
              dsimp only
              linarith
            · exact ih s h
        · exact ih s hs
      · rcases List.mem_cons.mp hs with h | h
        · subst h
          dsimp only
          linarith
        · exact ih s h

/-- Claim C10: `validate_segment_timing` is unchanged by pre-removing
segments with non-positive duration — they are dropped from the output,
never counted as suspicious, never re-transcribed — and every output
segment has positive duration. -/
theorem C10_nonpositive_duration_removed (cfg : Config) (env : Env) (segs : List Seg) :
    validate_segment_timing cfg env segs =
      validate_segment_timing cfg env (segs.filter (fun s => decide (s.start < s.stop))) ∧
    ∀ s ∈ (validate_segment_timing cfg env segs).validated, s.start < s.stop :=
  ⟨validate_filter_eq cfg env segs, fun s hs => validate_output_positive cfg env segs s hs⟩

/-- Witness for C10: a positive-duration segment survives validation and
has `start < stop`. -/
theorem C10_witness :
    ⟨0, 1, "x", []⟩ ∈ (validate_segment_timing ({} : Config) env0
      [⟨0, 1, "x", []⟩, ⟨5, 5, "abc", []⟩]).validated ∧
    (0 : ℚ) < 1 :=
  ⟨of_decide_eq_true (by with_unfolding_all rfl),
    C10_nonpositive_duration_removed ({} : Config) env0 [⟨0, 1, "x", []⟩, ⟨5, 5, "abc", []⟩]
      |>.2 ⟨0, 1, "x", []⟩ (of_decide_eq_true (by with_unfolding_all rfl))⟩

theorem splitWalk_mem (p s : List String) (m : Nat) :
    ∀ (ws cur : List Word) (txt : String) (chunk : List Word),
      chunk ∈ splitWalk p s m ws cur txt → ∀ w ∈ chunk, w ∈ cur ∨ w ∈ ws := by
  intro ws
  induction ws with
  | nil =>
    intro cur txt chunk hc w hw
    unfold splitWalk at hc
    split at hc
    · simp at hc
    · simp only [List.mem_singleton] at hc
      subst hc
      exact Or.inl hw
  | cons w0 rest ih =>
    intro cur txt chunk hc w hw
    unfold splitWalk at hc
    dsimp only at hc
    repeat' split at hc
    all_goals
      first
      | (rcases List.mem_cons.mp hc with h | h
         · subst h
           rcases List.mem_append.mp hw with h3 | h3
           · exact Or.inl h3
           · simp only [List.mem_singleton] at h3
             subst h3
             exact Or.inr (List.mem_cons_self _ _)
         · rcases ih _ _ chunk h w hw with h2 | h2
           · simp at h2
           · exact Or.inr (List.mem_cons_of_mem _ h2))
      | (rcases ih _ _ chunk hc w hw with h2 | h2
         · rcases List.mem_append.mp h2 with h3 | h3
           · exact Or.inl h3
           · simp only [List.mem_singleton] at h3
             subst h3
             exact Or.inr (List.mem_cons_self _ _)
         · exact Or.inr (List.mem_cons_of_mem _ h2))

theorem proportionTiming_bounds (stopv duration : ℚ) (total : Nat) (lb : ℚ)
    (hd : 0 ≤ duration) :
    ∀ (chunks : List (List Char)) (current : ℚ), lb ≤ current → current ≤ stopv →
      ∀ c ∈ proportionTiming stopv duration total chunks current,
        lb ≤ c.start ∧ c.stop ≤ stopv := by
  intro chunks
  induction chunks with
  | nil => intro current _ _ c hc; simp [proportionTiming] at hc
  | cons ch rest ih =>
    intro current h1 h2 c hc
    have hdur : 0 ≤ duration * ((ch.length : ℚ) / (total : ℚ)) :=
      mul_nonneg hd (div_nonneg (by positivity) (by positivity))
    rw [proportionTiming] at hc
    rcases List.mem_cons.mp hc with h | h
    · subst h
      refine ⟨h1, ?_⟩
      exact min_le_right _ _
    · refine ih _ ?_ ?_ c h
      · exact le_min (by linarith) (by linarith)
      · exact min_le_right _ _

/-- Claim C9: for every segment whose word timestamps (when present) lie
within its `[start, end]` span, every chunk produced by
`split_segment_with_timing` — including proportional-fallback chunks —
has its start and end within the parent's original span. -/
theorem C9_split_chunks_within_span (seg : Seg) (cfg : Config)
    (hse : seg.start ≤ seg.stop)
    (hw : ∀ w ∈ seg.words, seg.start ≤ w.start ∧ w.stop ≤ seg.stop) :
    ∀ c ∈ split_segment_with_timing seg cfg, seg.start ≤ c.start ∧ c.stop ≤ seg.stop := by
  intro c hc
  unfold split_segment_with_timing at hc
  dsimp only at hc
  split at hc
  · simp only [List.mem_singleton] at hc
    subst hc
    exact ⟨le_refl _, le_refl _⟩
  · split at hc
    · unfold split_by_character_proportion at hc
      dsimp only at hc
      exact proportionTiming_bounds seg.stop (seg.stop - seg.start) _ seg.start
        (by linarith) _ seg.start (le_refl _) hse c hc
    · split at hc
      · simp only [List.mem_singleton] at hc
        subst hc
        exact ⟨le_refl _, le_refl _⟩
      · rcases List.mem_filterMap.mp hc with ⟨cw, hcw, hsome⟩
        cases cw with
        | nil => simp at hsome
        | cons c0 cs =>
          simp only [Option.some.injEq] at hsome
          subst hsome
          have hmem := splitWalk_mem cfg.primary_breaks cfg.secondary_breaks
            cfg.max_line_length seg.words [] "" (c0 :: cs) hcw
          constructor
          · rcases hmem c0 (List.mem_cons_self _ _) with h | h
            · simp at h
            · exact (hw c0 h).1
          · rcases hmem ((c0 :: cs).getLast (by simp)) (List.getLast_mem (by simp)) with h | h
            · simp at h
            · exact (hw _ h).2

/-- Witness for C9 at a concrete short segment (returned as its own
single chunk). -/
theorem C9_witness :
    split_segment_with_timing ⟨0, 5, "あい", []⟩ {} = [⟨0, 5, "あい", []⟩] ∧
    ((0 : ℚ) ≤ (0 : ℚ) ∧ (5 : ℚ) ≤ (5 : ℚ)) := by
  have heq : split_segment_with_timing ⟨0, 5, "あい", []⟩ {} = [⟨0, 5, "あい", []⟩] := by
    with_unfolding_all rfl
  refine ⟨heq, ?_⟩
  exact C9_split_chunks_within_span ⟨0, 5, "あい", []⟩ {} (by norm_num) (by simp)
    ⟨0, 5, "あい", []⟩ (heq ▸ List.mem_singleton.mpr rfl)

theorem verify_tb_unadjusted (cfg : Config) (env : Env) (exps : List ℚ) (seg : Seg) :
    (verify_segment_timing_time_based cfg env exps seg).2 = false →
    (verify_segment_timing_time_based cfg env exps seg).1 = seg := by
  unfold verify_segment_timing_time_based
  dsimp only
  repeat' split
  all_goals intro h
  all_goals first | rfl | exact absurd h (by simp)

theorem realign_ts_unadjusted (cfg : Config) (env : Env) (exps : List ℚ) (seg : Seg)
    (idx : Nat) (ctx : List Seg) :
    (realign_segment_timing_text_search cfg env exps seg idx ctx).2 = false →
    (realign_segment_timing_text_search cfg env exps seg idx ctx).1 = seg := by
  unfold realign_segment_timing_text_search
  dsimp only
  repeat' split
  all_goals intro h
  all_goals first | rfl | exact absurd h (by simp)

theorem realign_tb_no_adjustment (cfg : Config) (env : Env) (exps : List ℚ)
    (segs : List Seg)
    (h : ∀ s ∈ segs, (verify_segment_timing_time_based cfg env exps s).2 = false) :
    realign_timing_time_based cfg env exps segs = segs := by
  unfold realign_timing_time_based
  split
  · rfl
  · split
    · rfl
    · dsimp only
      have h1 : (segs.map (verify_segment_timing_time_based cfg env exps)).map (·.1) = segs := by
        rw [List.map_map]
        have : ∀ s ∈ segs,
            ((fun x => x.1) ∘ verify_segment_timing_time_based cfg env exps) s = id s :=
          fun s hs => verify_tb_unadjusted cfg env exps s (h s hs)
        rw [List.map_congr_left this, List.map_id]
      have h2 : (segs.map (verify_segment_timing_time_based cfg env exps)).enum.filter
          (fun p => p.2.2) = [] := by
        apply List.filter_eq_nil_iff.mpr
        intro p hp
        have hmem : p.2 ∈ segs.map (verify_segment_timing_time_based cfg env exps) :=
          List.snd_mem_of_mem_enum hp
        rcases List.mem_map.mp hmem with ⟨s, hs, hps⟩
        have h3 := h s hs
        rw [hps] at h3
        simp [h3]
      rw [h1, h2]
      simp [overlapPass]

theorem tsLoop_no_adjustment (cfg : Config) (env : Env) (exps : List ℚ)
    (segs : List Seg)
    (h : ∀ i, i < segs.length →
      (realign_segment_timing_text_search cfg env exps (segs.getD i segD) i segs).2 = false) :
    ∀ (l done : List Seg) (idx : Nat), done ++ l = segs → done.length = idx →
      tsLoop cfg env exps done idx l = (l, []) := by
  intro l
  induction l with
  | nil => intro done idx _ _; rfl
  | cons s rest ih =>
    intro done idx hseg hlen
    have hi : idx < segs.length := by
      rw [← hseg, List.length_append, List.length_cons]
      omega
    have hgetd : segs.getD idx segD = s := by
      rw [← hseg, ← hlen]
      rw [List.getD_append_right _ _ _ _ (le_refl _)]
      simp
    have hu : (realign_segment_timing_text_search cfg env exps s idx
        (done ++ s :: rest)).2 = false := by
      rw [hseg]
      have h2 := h idx hi
      rwa [hgetd] at h2
    have hid := realign_ts_unadjusted cfg env exps s idx (done ++ s :: rest) hu
    unfold tsLoop
    dsimp only
    rw [hid, hu]
    have hrec := ih (done ++ [s]) (idx + 1)
      (by rw [List.append_assoc]; simpa using hseg)
      (by simp [← hlen])
    rw [hrec]
    simp

theorem realign_ts_no_adjustment (cfg : Config) (env : Env) (exps : List ℚ)
    (segs : List Seg)
    (h : ∀ i, i < segs.length →
      (realign_segment_timing_text_search cfg env exps (segs.getD i segD) i segs).2 = false) :
    realign_timing_text_search cfg env exps segs = segs := by
  unfold realign_timing_text_search
  split
  · rfl
  · split
    · rfl
    · dsimp only
      rw [tsLoop_no_adjustment cfg env exps segs h segs [] 0 rfl rfl]
      simp [overlapPass]

/-- Claim C1 (amended): the realigners resolve overlaps only around
segments their verification pass adjusted; when no segment is adjusted,
either strategy returns its input unchanged, so adjacent pairs satisfy
`b.start ≥ a.end` exactly when the input already did. -/
theorem C1_amended_overlap_freedom_conditional (cfg : Config) (env : Env) (exps : List ℚ)
    (segs : List Seg)
    (htb : ∀ s ∈ segs, (verify_segment_timing_time_based cfg env exps s).2 = false)
    (hts : ∀ i, i < segs.length →
      (realign_segment_timing_text_search cfg env exps (segs.getD i segD) i segs).2 = false)
    (hchain : List.Chain' (fun a b => a.stop ≤ b.start) segs) :
    realign_timing_time_based cfg env exps segs = segs ∧
    realign_timing_text_search cfg env exps segs = segs ∧
    List.Chain' (fun a b => a.stop ≤ b.start) (realign_timing_time_based cfg env exps segs) ∧
    List.Chain' (fun a b => a.stop ≤ b.start) (realign_timing_text_search cfg env exps segs) := by
  have h1 := realign_tb_no_adjustment cfg env exps segs htb
  have h2 := realign_ts_no_adjustment cfg env exps segs hts
  exact ⟨h1, h2, h1.symm ▸ hchain, h2.symm ▸ hchain⟩

/-- Witness for the amended C1 at a concrete non-overlapping input that
verifies unchanged under both strategies. -/
theorem C1_witness :
    realign_timing_time_based ({} : Config) c1env c1exps c1wsegs = c1wsegs ∧
    realign_timing_text_search ({} : Config) c1env c1exps c1wsegs = c1wsegs ∧
    List.Chain' (fun a b => a.stop ≤ b.start)
      (realign_timing_time_based ({} : Config) c1env c1exps c1wsegs) ∧
    List.Chain' (fun a b => a.stop ≤ b.start)
      (realign_timing_text_search ({} : Config) c1env c1exps c1wsegs) :=
  C1_amended_overlap_freedom_conditional ({} : Config) c1env c1exps c1wsegs
    (by
      intro s hs
      rcases List.mem_cons.mp hs with h | h
      · subst h
        with_unfolding_all rfl
      · rcases List.mem_cons.mp h with h2 | h2
        · subst h2
          with_unfolding_all rfl
        · simp at h2)
    (by
      intro i hi
      rw [show c1wsegs.length = 2 from rfl] at hi
      interval_cases i
      · with_unfolding_all rfl
      · with_unfolding_all rfl)
    (by
      rw [show c1wsegs = [⟨0, 5, "あ", []⟩, ⟨6, 11, "い", []⟩] from rfl]
      refine List.chain'_cons.mpr ⟨?_, List.chain'_singleton _⟩
      show (5 : ℚ) ≤ 6
      norm_num)
